import Mathlib

/-!
Verification of the GTMAgent chat backend (Python) against its design
specification, via a shallow embedding of the relevant source functions.

Modules embedded:
* `backend/utils/chat_utils.py`  — `count_tokens`, `summarize_messages`
* `backend/services/chatgraph_service.py` — `ChatProcessor` pipeline
* `backend/services/websearch_service.py` — `WebSearchService`
* `backend/chat_manager.py` — `ChatManager.clear_conversation`
* `backend/chat_graph.py` — `truncate_messages` (imported there from
  `utils.chat_utils` but absent from the sources; modelled from the spec)

External capabilities (the tiktoken encoder, the LLM completion call, the
web-search call, `json.loads`, `re.search`, the wall clock) are passed as
explicit parameters; a call that can raise in Python is given an
`Except String`/`Option` codomain.
-/

namespace GTMAgent

/-- A chat message as the Python code represents it: a dict with keys
`role`, `content`, `timestamp` (`backend` message dicts; spec §3 Message). -/
structure Msg where
  role : String
  content : String
  timestamp : String
deriving Repr, DecidableEq

/-- The external tiktoken encoder `tokenizer.encode`: returns the token list
for a text, or raises (e.g. on disallowed special tokens). -/
def TokFn : Type := String → Except String (List Nat)

/-- The LLM completion capability as `summarize_messages` uses it:
`llm.invoke([HumanMessage(content=prompt)]).content`, i.e. prompt text in,
reply text out; may raise (network/auth). -/
def LlmTextFn : Type := String → Except String String

/-- `count_tokens` from `utils/chat_utils.py` (lines 45–47):
`len(tokenizer.encode(text))`.  There is no exception handling around the
encoder call, so an encoder failure propagates. -/
def count_tokens (tok : TokFn) (text : String) : Except String Nat :=
  (tok text).map List.length

/-- Line 17 of `utils/chat_utils.py`:
`sum(count_tokens(m["content"]) + 4 for m in messages)`.  Any failing
`count_tokens` call makes the whole sum raise. -/
def totalTokens (tok : TokFn) : List Msg → Except String Nat
  | [] => Except.ok 0
  | m :: rest => do
    let c ← count_tokens tok m.content
    let r ← totalTokens tok rest
    return c + 4 + r

/-- Lines 25–28 of `utils/chat_utils.py`: the summary prompt built from the
older half of the conversation. -/
def buildSummaryPrompt (to_summarize : List Msg) : String :=
  "Summarize the following conversation:\n\n" ++
    String.join (to_summarize.map (fun m => m.role ++ ": " ++ m.content ++ "\n")) ++
    "\nSummary:"

/-- `summarize_messages` from `utils/chat_utils.py` (lines 6–39), indexed by
recursion fuel so that the Python recursion's behaviour is observable:
`none` means the recursion has not returned within `fuel` nested calls;
`some (Except.error e)` means the call raised; `some (Except.ok l)` means it
returned `l`.

Notes kept faithful to the source:
* the early return (line 19) and the post-summary filter (line 38) drop
  elements that are classes (`isinstance(m, type)`); every element of a
  `List Msg` models a plain dict, so the filters keep everything;
* the summary message's timestamp is built with
  `datetime.now(timezone.utc).isoformat()` although `chat_utils.py` never
  imports `timezone`; the embedding abstracts the produced timestamp as the
  parameter `now` (in CPython this line raises `NameError` when reached,
  which only strengthens the negative results proved below);
* the conditional on line 39 re-checks `total_tokens`, the total computed on
  line 17 for the *pre-summarization* list, so inside this branch it is
  always true and the `else` arm is dead code; it is embedded as written. -/
def summarize_messages (llm : LlmTextFn) (tok : TokFn) (now : String) :
    Nat → List Msg → Nat → Option (Except String (List Msg))
  | 0, _, _ => none
  | fuel + 1, messages, max_tokens =>
    match totalTokens tok messages with
    | Except.error e => some (Except.error e)
    | Except.ok total_tokens =>
      if total_tokens ≤ max_tokens then
        some (Except.ok messages)
      else
        let split_idx := messages.length / 2
        let to_summarize := messages.take split_idx
        let to_keep := messages.drop split_idx
        match llm (buildSummaryPrompt to_summarize) with
        | Except.error e => some (Except.error e)
        | Except.ok summary =>
          let summary_message : Msg :=
            ⟨"system", "Summary of earlier conversation: " ++ summary, now⟩
          let new_messages := summary_message :: to_keep
          if total_tokens > max_tokens then
            summarize_messages llm tok now fuel new_messages max_tokens
          else
            some (Except.ok new_messages)

/-- A tokenizer capability that always succeeds, charging one token per
character (used for concrete evaluations). -/
def tokLen : TokFn := fun s => Except.ok (s.toList.map (fun _ => 0))

/-- An LLM capability that always replies with the fixed summary `"s"`. -/
def llmConst : LlmTextFn := fun _ => Except.ok "s"

/-- A single user message of 20 characters: cost `20 + 4 = 24` under
`tokLen`, exceeding the budget `10` used in the C1 analysis. -/
def bigC1Msg : Msg := ⟨"user", "0123456789abcdefghij", "t"⟩

/-- The summary message that every summarization round under `llmConst`
produces. -/
def sC1Msg : Msg := ⟨"system", "Summary of earlier conversation: s", "t"⟩

/-- One summarization round maps `[sC1Msg, bigC1Msg]` back to itself
(split index `1`, kept half `[bigC1Msg]`, new summary again `sC1Msg`),
so the recursion never returns on this list. -/
theorem summarize_fixedpoint :
    ∀ fuel : Nat,
      summarize_messages llmConst tokLen "t" fuel [sC1Msg, bigC1Msg] 10 = none := by
  intro fuel
  induction fuel with
  | zero => rfl
  | succ n ih =>
    have hstep :
        summarize_messages llmConst tokLen "t" (n + 1) [sC1Msg, bigC1Msg] 10 =
          summarize_messages llmConst tokLen "t" n [sC1Msg, bigC1Msg] 10 := rfl
    rw [hstep, ih]

/-- C1: refuted (code bug).  The spec demands that summarizing truncation
always terminates within `log2 N + 1` rounds and in particular returns a
best-effort result on a single message whose cost alone exceeds the budget.
In the code, a single oversized message makes the recursion grow the list to
`[summary, message]` and then loop on it forever (line 39 re-checks the stale
pre-summarization total, and the kept half always retains the oversized
message), so no amount of recursion fuel produces a return value. -/
theorem summarize_messages_single_oversized_never_returns :
    ∀ fuel : Nat,
      summarize_messages llmConst tokLen "t" fuel [bigC1Msg] 10 = none := by
  intro fuel
  cases fuel with
  | zero => rfl
  | succ n =>
    have hstep :
        summarize_messages llmConst tokLen "t" (n + 1) [bigC1Msg] 10 =
          summarize_messages llmConst tokLen "t" n [sC1Msg, bigC1Msg] 10 := rfl
    rw [hstep, summarize_fixedpoint]

/-- C3: confirmed.  When every token count succeeds and the total cost
(per-message `count_tokens(content) + 4`) is at most the budget,
`summarize_messages` returns the input list unchanged (lines 16–19; the
`isinstance(m, type)` filter keeps every dict message). -/
theorem summarize_messages_identity (llm : LlmTextFn) (tok : TokFn) (now : String)
    (messages : List Msg) (max_tokens fuel total : Nat)
    (htot : totalTokens tok messages = Except.ok total)
    (hle : total ≤ max_tokens) :
    summarize_messages llm tok now (fuel + 1) messages max_tokens =
      some (Except.ok messages) := by
  simp [summarize_messages, htot, hle]

/-- Witness for C3 at a concrete input: a two-message list of total cost
`(2+4) + (9+4) = 19 ≤ 100` is returned unchanged. -/
theorem summarize_messages_identity_witness :
    summarize_messages llmConst tokLen "t" 1
        [⟨"user", "hi", "t"⟩, ⟨"assistant", "hello you", "t"⟩] 100 =
      some (Except.ok [⟨"user", "hi", "t"⟩, ⟨"assistant", "hello you", "t"⟩]) :=
  summarize_messages_identity llmConst tokLen "t" _ 100 0 19 rfl (by decide)

/-- C2 (amended): `summarize_messages` has no character-length fallback for a
failing token count; a failure of the token-count capability on any message
propagates out of the trimmer unchanged. -/
theorem summarize_messages_tok_error (llm : LlmTextFn) (tok : TokFn) (now : String)
    (messages : List Msg) (max_tokens fuel : Nat) (e : String)
    (htot : totalTokens tok messages = Except.error e) :
    summarize_messages llm tok now (fuel + 1) messages max_tokens =
      some (Except.error e) := by
  simp [summarize_messages, htot]

/-- Witness for the amended C2 at a concrete input: a tokenizer that raises
makes the trimmer raise. -/
theorem summarize_messages_tok_error_witness :
    summarize_messages llmConst (fun _ => Except.error "tiktoken raised") "t" 1
        [⟨"user", "hello", "t"⟩] 100 =
      some (Except.error "tiktoken raised") :=
  summarize_messages_tok_error llmConst _ "t" _ 100 0 "tiktoken raised" rfl

/-- Counterexample to C2 as stated ("the trimmer never raises; a token-count
failure degrades to the content's character length"): with a tokenizer
capability that raises, `summarize_messages` raises instead of falling back
and completing normally. -/
theorem summarize_messages_raises_counterexample :
    summarize_messages llmConst (fun _ => Except.error "tiktoken raised") "t" 3
        [⟨"user", "hello", "t"⟩] 100 =
      some (Except.error "tiktoken raised") := rfl

/-! ### `backend/services/chatgraph_service.py` -/

/-- A LangChain chat message, as built by `_decide_search_node` and
`_call_llm` from the message dicts (`HumanMessage`/`AIMessage`/
`SystemMessage`). -/
inductive LcMsg where
  | human (content : String)
  | ai (content : String)
  | system (content : String)
deriving Repr, DecidableEq

/-- The chat LLM capability `self.llm.invoke(messages).content`: ordered
role-tagged messages in, reply text out; may raise (network/auth). -/
def LlmChatFn : Type := List LcMsg → Except String String

/-- Models lines 111–116 of `chatgraph_service.py`:
`json.loads(response.content)` followed by
`decision.get("needs_search", False)` and `decision.get("search_query")`.
`none` models an exception anywhere in that block (malformed JSON, or a
parsed value without `.get`); `some (ns, q)` the two extracted fields. -/
def JsonDecisionFn : Type := String → Option (Bool × Option String)

/-- The module-level `web_search` function (lines 33–62): Brave search plus
page scraping, pure I/O against external services; returns the formatted
result text or raises (e.g. `RuntimeError` when `BRAVE_API_KEY` is unset,
or any failure of the search tool). -/
def SearchTextFn : Type := String → Except String String

/-- The `ChatState` TypedDict of `chatgraph_service.py` (lines 27–31). -/
structure ChatState where
  messages : List Msg
  needs_search : Bool
  search_query : Option String
  search_results : Option String
deriving Repr, DecidableEq

/-- Lines 82–91 / 170–179: conversion of message dicts to LangChain
messages; roles other than `user`/`assistant`/`system` are skipped (the
`isinstance(msg, type)` guard only skips class objects, which a `List Msg`
does not contain). -/
def toLcMessages (msgs : List Msg) : List LcMsg :=
  msgs.filterMap (fun m =>
    if m.role = "user" then some (LcMsg.human m.content)
    else if m.role = "assistant" then some (LcMsg.ai m.content)
    else if m.role = "system" then some (LcMsg.system m.content)
    else none)

/-- The instructional system prompt of `_decide_search_node` (lines 94–99). -/
def decideSystemPrompt : String :=
  "You are an agent that decides if a web search is needed to answer the user's last question. " ++
  "If a search is needed, return a JSON object: \x7b\"needs_search\": true, \"search_query\": \"...\"\x7d. " ++
  "If not, return: \x7b\"needs_search\": false, \"search_query\": null\x7d. " ++
  "Only output the JSON object."

/-- Lines 101–105: the content of the last user-role message, scanning in
reverse. -/
def lastUserContent (msgs : List Msg) : Option String :=
  (msgs.reverse.find? (fun m => m.role == "user")).map Msg.content

/-- The message list `_decide_search_node` hands to the LLM: converted
history, the decision system prompt, and (if the last user content is
truthy, i.e. present and non-empty) the quoted last user message. -/
def buildDecideMessages (state : ChatState) : List LcMsg :=
  let messages := toLcMessages state.messages ++ [LcMsg.system decideSystemPrompt]
  match lastUserContent state.messages with
  | some u => if u = "" then messages
      else messages ++ [LcMsg.human ("User's last message: " ++ u)]
  | none => messages

/-- `ChatProcessor._decide_search_node` (lines 78–122): ask the LLM for a
decision object; on any parse failure fall back to
`needs_search = False, search_query = None` (lines 117–120). An LLM failure
itself propagates (the call is outside the try block). -/
def decideSearchNode (llm : LlmChatFn) (jsonLoads : JsonDecisionFn)
    (state : ChatState) : Except String ChatState :=
  match llm (buildDecideMessages state) with
  | Except.error e => Except.error e
  | Except.ok response =>
    match jsonLoads response with
    | some (ns, q) => Except.ok { state with needs_search := ns, search_query := q }
    | none => Except.ok { state with needs_search := false, search_query := none }

/-- `ChatProcessor._web_search_node` (lines 123–142): no/empty query or a
failing `web_search` call both degrade to `search_results = None`; a
successful call stores the result text; `needs_search` is reset in every
branch.  The node itself never raises. -/
def webSearchNode (ws : SearchTextFn) (state : ChatState) : ChatState :=
  match state.search_query with
  | none => { state with search_results := none, needs_search := false }
  | some query =>
    if query = "" then { state with search_results := none, needs_search := false }
    else
      match ws query with
      | Except.ok result =>
          { state with search_results := some result, needs_search := false }
      | Except.error _ =>
          { state with search_results := none, needs_search := false }

/-- The grounding system prompt `_call_llm` appends when search results are
present (lines 185–189). -/
def searchResultsPrompt (search_results : String) : String :=
  "Here are recent web search results. Use these to answer the user's question as best as possible. " ++
  " Include a brief summary or highlight of current headlines drawn from the snippets provided, to add context to the answer." ++
  "If you don't find an answer, say so. Results:\n" ++ search_results

/-- The message list `_call_llm` hands to the completion capability
(lines 169–192): the converted history, plus one grounding system message
iff `search_results` is not `None`. -/
def buildLlmMessages (state : ChatState) : List LcMsg :=
  let messages := toLcMessages state.messages
  match state.search_results with
  | some r => messages ++ [LcMsg.system (searchResultsPrompt r)]
  | none => messages

/-- `ChatProcessor._call_llm` (lines 165–209): invoke the completion
capability on `buildLlmMessages`, append the reply as an assistant message
dict to the state's messages (lines 195–199); any exception re-raises. -/
def callLlm (llm : LlmChatFn) (now : String) (state : ChatState) :
    Except String ChatState :=
  match llm (buildLlmMessages state) with
  | Except.error e => Except.error e
  | Except.ok response =>
    Except.ok { state with
      messages := state.messages ++ [⟨"assistant", response, now⟩] }

/-- The compiled workflow of `_build_workflow` (lines 144–163): entry point
`decide_search`; conditional edge to `web_search` iff `needs_search`, else
straight to `llm`; `web_search → llm` unconditionally; finish at `llm`. -/
def workflowInvoke (llm : LlmChatFn) (jsonLoads : JsonDecisionFn)
    (ws : SearchTextFn) (now : String) (state : ChatState) :
    Except String ChatState :=
  match decideSearchNode llm jsonLoads state with
  | Except.error e => Except.error e
  | Except.ok s1 =>
    callLlm llm now (if s1.needs_search then webSearchNode ws s1 else s1)

/-- What a `process_message` call returns: the reply text and the processor's
stored `chat_history` after the call. -/
structure ProcOut where
  response : String
  chat_history : List Msg
deriving Repr, DecidableEq

/-- `MAX_TOKENS` from `chatgraph_service.py` (line 24). -/
def MAX_TOKENS : Nat := 4000

/-- `ChatProcessor.process_message` (lines 211–232): append the user message
dict to the stored history; summarize a copy of the history against
`MAX_TOKENS - 500`; run the workflow on it; append the workflow's last
message (the assistant reply) to the stored history and return its content.
`none` means the summarization recursion did not return within `fuel`
nested calls; `some (Except.error e)` a propagated exception. -/
def process_message (llm : LlmChatFn) (jsonLoads : JsonDecisionFn)
    (ws : SearchTextFn) (tok : TokFn) (now : String) (fuel : Nat)
    (chat_history : List Msg) (message : String) :
    Option (Except String ProcOut) :=
  match summarize_messages (fun prompt => llm [LcMsg.human prompt]) tok now fuel
      (chat_history ++ [⟨"user", message, now⟩]) (MAX_TOKENS - 500) with
  | none => none
  | some (Except.error e) => some (Except.error e)
  | some (Except.ok processing_history) =>
    match workflowInvoke llm jsonLoads ws now ⟨processing_history, false, none, none⟩ with
    | Except.error e => some (Except.error e)
    | Except.ok result =>
      match result.messages.getLast? with
      | none => some (Except.error "IndexError")
      | some assistant_message =>
          some (Except.ok
            ⟨assistant_message.content,
              (chat_history ++ [⟨"user", message, now⟩]) ++ [assistant_message]⟩)

/-- `_decide_search_node` only rewrites the decision fields: the message list
is unchanged in both the parsed and the fallback branch. -/
theorem decideSearchNode_messages (llm : LlmChatFn) (jsonLoads : JsonDecisionFn)
    (state s1 : ChatState) (h : decideSearchNode llm jsonLoads state = Except.ok s1) :
    s1.messages = state.messages := by
  cases hllm : llm (buildDecideMessages state) with
  | error e => simp [decideSearchNode, hllm] at h
  | ok response =>
    cases hp : jsonLoads response with
    | none =>
      simp only [decideSearchNode, hllm, hp, Except.ok.injEq] at h
      rw [← h]
    | some d =>
      obtain ⟨ns, q⟩ := d
      simp only [decideSearchNode, hllm, hp, Except.ok.injEq] at h
      rw [← h]

/-- `_web_search_node` only rewrites the search fields: the message list is
unchanged in every branch. -/
theorem webSearchNode_messages (ws : SearchTextFn) (s : ChatState) :
    (webSearchNode ws s).messages = s.messages := by
  rcases s with ⟨msgs, ns, sq, sr⟩
  cases sq with
  | none => rfl
  | some query =>
    by_cases hq : query = ""
    · simp [webSearchNode, hq]
    · simp only [webSearchNode, hq, if_neg, ite_false]
      cases ws query <;> rfl

/-- A successful `_call_llm` appends exactly the completion reply as one
assistant message. -/
theorem callLlm_ok (llm : LlmChatFn) (now : String) (state s' : ChatState)
    (h : callLlm llm now state = Except.ok s') :
    ∃ response, llm (buildLlmMessages state) = Except.ok response ∧
      s' = { state with messages := state.messages ++ [⟨"assistant", response, now⟩] } := by
  cases hllm : llm (buildLlmMessages state) with
  | error e => simp [callLlm, hllm] at h
  | ok response =>
    simp only [callLlm, hllm, Except.ok.injEq] at h
    exact ⟨response, rfl, h.symm⟩

/-- A successful workflow run returns the input messages with exactly one
assistant message appended. -/
theorem workflowInvoke_ok_messages (llm : LlmChatFn) (jsonLoads : JsonDecisionFn)
    (ws : SearchTextFn) (now : String) (state result : ChatState)
    (h : workflowInvoke llm jsonLoads ws now state = Except.ok result) :
    ∃ response,
      result.messages = state.messages ++ [⟨"assistant", response, now⟩] := by
  cases hd : decideSearchNode llm jsonLoads state with
  | error e => simp [workflowInvoke, hd] at h
  | ok s1 =>
    simp only [workflowInvoke, hd] at h
    obtain ⟨response, _, hres⟩ := callLlm_ok llm now _ result h
    refine ⟨response, ?_⟩
    have hmsg : s1.messages = state.messages :=
      decideSearchNode_messages llm jsonLoads state s1 hd
    subst hres
    by_cases hb : s1.needs_search = true
    · simp [hb, webSearchNode_messages, hmsg]
    · simp [hb, hmsg]

/-- A successful `ChatProcessor.process_message` call leaves the stored
history equal to the old history plus exactly one user message (appended
before the workflow) and one assistant message carrying the returned reply
(appended after it). -/
theorem process_message_ok (llm : LlmChatFn) (jsonLoads : JsonDecisionFn)
    (ws : SearchTextFn) (tok : TokFn) (now : String) (fuel : Nat)
    (history : List Msg) (message : String) (out : ProcOut)
    (h : process_message llm jsonLoads ws tok now fuel history message =
      some (Except.ok out)) :
    out.chat_history =
      history ++ [⟨"user", message, now⟩, ⟨"assistant", out.response, now⟩] := by
  cases hs : summarize_messages (fun prompt => llm [LcMsg.human prompt]) tok now fuel
      (history ++ [⟨"user", message, now⟩]) (MAX_TOKENS - 500) with
  | none => simp [process_message, hs] at h
  | some r =>
    cases r with
    | error e => simp [process_message, hs] at h
    | ok processing_history =>
      cases hw : workflowInvoke llm jsonLoads ws now
          ⟨processing_history, false, none, none⟩ with
      | error e => simp [process_message, hs, hw] at h
      | ok result =>
        obtain ⟨response, hrm⟩ :=
          workflowInvoke_ok_messages llm jsonLoads ws now _ result hw
        simp only [process_message, hs, hw, hrm, List.getLast?_concat,
          Option.some.injEq, Except.ok.injEq] at h
        rw [← h]
        simp

/-- C6: confirmed.  Each successful `process_message` call appends exactly
one user message before the decision step and exactly one assistant message
after completion, so two sequential successful calls on the same
conversation leave a stored history of exactly 4 messages, 2 user and
2 assistant, in call order. -/
theorem process_message_two_calls (llm : LlmChatFn) (jsonLoads : JsonDecisionFn)
    (ws : SearchTextFn) (tok : TokFn) (now now2 : String) (fuel fuel2 : Nat)
    (m1 m2 : String) (out1 out2 : ProcOut)
    (h1 : process_message llm jsonLoads ws tok now fuel [] m1 =
      some (Except.ok out1))
    (h2 : process_message llm jsonLoads ws tok now2 fuel2 out1.chat_history m2 =
      some (Except.ok out2)) :
    out2.chat_history.length = 4 ∧
    out2.chat_history.map Msg.role = ["user", "assistant", "user", "assistant"] ∧
    out2.chat_history.map Msg.content = [m1, out1.response, m2, out2.response] := by
  have e1 := process_message_ok llm jsonLoads ws tok now fuel [] m1 out1 h1
  have e2 := process_message_ok llm jsonLoads ws tok now2 fuel2
    out1.chat_history m2 out2 h2
  refine ⟨?_, ?_, ?_⟩ <;> rw [e2, e1] <;> rfl

/-- The demo completion capability: every call replies `"Hi"`. -/
def llmHi : LlmChatFn := fun _ => Except.ok "Hi"

/-- The demo decision parse: every reply parses to
`needs_search = False, search_query = None`. -/
def jsonNoSearch : JsonDecisionFn := fun _ => some (false, none)

/-- The demo search capability: always succeeds with fixed text. -/
def wsOk : SearchTextFn := fun _ => Except.ok "results"

/-- The stored history after the first demo `process_message` call. -/
def demoHist1 : List Msg := [⟨"user", "Hello", "t"⟩, ⟨"assistant", "Hi", "t"⟩]

/-- The stored history after the second demo `process_message` call. -/
def demoHist2 : List Msg :=
  demoHist1 ++ [⟨"user", "Bye", "t"⟩, ⟨"assistant", "Hi", "t"⟩]

/-- The result of the first demo call: reply `"Hi"`, history `demoHist1`. -/
def demoOut1 : ProcOut := ⟨"Hi", demoHist1⟩

/-- The result of the second demo call: reply `"Hi"`, history `demoHist2`. -/
def demoOut2 : ProcOut := ⟨"Hi", demoHist2⟩

/-- Concrete evaluation: the first demo call succeeds with `demoOut1`. -/
theorem demo_call1 :
    process_message llmHi jsonNoSearch wsOk tokLen "t" 1 [] "Hello" =
      some (Except.ok demoOut1) := rfl

/-- Concrete evaluation: the second demo call (on `demoOut1`'s history)
succeeds with `demoOut2`. -/
theorem demo_call2 :
    process_message llmHi jsonNoSearch wsOk tokLen "t" 1 demoOut1.chat_history "Bye" =
      some (Except.ok demoOut2) := rfl

/-- Witness for C6 at concrete inputs: two successful calls (`"Hello"`,
then `"Bye"`) on an initially empty conversation leave 4 messages,
2 user and 2 assistant, in call order. -/
theorem process_message_two_calls_witness :
    demoOut2.chat_history.length = 4 ∧
    demoOut2.chat_history.map Msg.role = ["user", "assistant", "user", "assistant"] ∧
    demoOut2.chat_history.map Msg.content = ["Hello", demoOut1.response, "Bye", demoOut2.response] :=
  process_message_two_calls llmHi jsonNoSearch wsOk tokLen "t" "t" 1 1
    "Hello" "Bye" demoOut1 demoOut2 demo_call1 demo_call2

/-- C10: confirmed.  The stored `chat_history` is append-only under
`process_message`: summarization is applied only to a per-call copy, so
after a successful call the previously stored messages are still present,
unmodified and in order (the old history is a prefix of the new one), and
the call appended exactly the user and assistant turn. -/
theorem process_message_append_only (llm : LlmChatFn) (jsonLoads : JsonDecisionFn)
    (ws : SearchTextFn) (tok : TokFn) (now : String) (fuel : Nat)
    (history : List Msg) (message : String) (out : ProcOut)
    (h : process_message llm jsonLoads ws tok now fuel history message =
      some (Except.ok out)) :
    history <+: out.chat_history ∧
    out.chat_history =
      history ++ [⟨"user", message, now⟩, ⟨"assistant", out.response, now⟩] := by
  have e := process_message_ok llm jsonLoads ws tok now fuel history message out h
  exact ⟨⟨_, e.symm⟩, e⟩

/-- Concrete evaluation: a call on an existing two-message history succeeds
with `demoOut2`. -/
theorem demo_call_on_hist1 :
    process_message llmHi jsonNoSearch wsOk tokLen "t" 1 demoHist1 "Bye" =
      some (Except.ok demoOut2) := rfl

/-- Witness for C10 at concrete inputs: a call on a conversation that
already stores two messages keeps them as a prefix. -/
theorem process_message_append_only_witness :
    demoHist1 <+: demoOut2.chat_history ∧
    demoOut2.chat_history =
      demoHist1 ++ [⟨"user", "Bye", "t"⟩, ⟨"assistant", demoOut2.response, "t"⟩] :=
  process_message_append_only llmHi jsonNoSearch wsOk tokLen "t" 1
    demoHist1 "Bye" demoOut2 demo_call_on_hist1

/-- C5 (amended): with `needs_search = true` decided and a failing search
capability, the workflow still reaches its terminal state and returns the
completion reply (non-empty whenever that reply is non-empty); the failure
is degraded by storing `search_results = None`, so the completion step runs
on the un-augmented message list and the error is not propagated to the
caller. -/
theorem workflow_search_failure_completes (llm : LlmChatFn)
    (jsonLoads : JsonDecisionFn) (ws : SearchTextFn) (now : String)
    (state : ChatState) (r0 response q e : String)
    (hllm0 : llm (buildDecideMessages state) = Except.ok r0)
    (hparse : jsonLoads r0 = some (true, some q))
    (hq : ¬ q = "")
    (hws : ws q = Except.error e)
    (hllm1 : llm (toLcMessages state.messages) = Except.ok response)
    (hne : ¬ response = "") :
    workflowInvoke llm jsonLoads ws now state =
      Except.ok ⟨state.messages ++ [⟨"assistant", response, now⟩], false, some q, none⟩ ∧
    ¬ response = "" := by
  rcases state with ⟨msgs, ns0, sq0, sr0⟩
  have hd : decideSearchNode llm jsonLoads ⟨msgs, ns0, sq0, sr0⟩ =
      Except.ok ⟨msgs, true, some q, sr0⟩ := by
    simp [decideSearchNode, hllm0, hparse]
  have hwsn : webSearchNode ws ⟨msgs, true, some q, sr0⟩ =
      ⟨msgs, false, some q, none⟩ := by
    simp [webSearchNode, hq, hws]
  have hcall : callLlm llm now ⟨msgs, false, some q, none⟩ =
      Except.ok ⟨msgs ++ [⟨"assistant", response, now⟩], false, some q, none⟩ := by
    simp [callLlm, buildLlmMessages, hllm1]
  refine ⟨?_, hne⟩
  simp [workflowInvoke, hd, hwsn, hcall]

/-- The always-failing search capability. -/
def wsFail : SearchTextFn := fun _ => Except.error "network down"

/-- The completion reply used in the C5 demonstration. -/
def c5Reply : String := "I looked it up."

/-- The decision reply used in the C5 demonstration. -/
def c5Decision : String :=
  "\x7b\"needs_search\": true, \"search_query\": \"latest news\"\x7d"

/-- The demo completion capability for C5: replies with the search decision
JSON on the decide prompt, and with `c5Reply` on the plain history. -/
def llmC5 : LlmChatFn := fun msgs =>
  if msgs = [LcMsg.human "latest news"] then Except.ok c5Reply
  else Except.ok c5Decision

/-- The demo decision parse for C5: `c5Decision` parses to
`needs_search = true` with query `"latest news"`; everything else fails. -/
def jsonC5 : JsonDecisionFn := fun s =>
  if s = c5Decision then some (true, some "latest news") else none

/-- The conversation state at the start of the C5 demonstration. -/
def c5State : ChatState := ⟨[⟨"user", "latest news", "t"⟩], false, none, none⟩

/-- Witness for the amended C5 at concrete inputs: the decision asks for a
search, the search capability raises, and the workflow still terminates
with a non-empty reply and `search_results = None`. -/
theorem workflow_search_failure_completes_witness :
    workflowInvoke llmC5 jsonC5 wsFail "t" c5State =
      Except.ok ⟨c5State.messages ++ [⟨"assistant", c5Reply, "t"⟩],
        false, some "latest news", none⟩ ∧
    ¬ c5Reply = "" :=
  workflow_search_failure_completes llmC5 jsonC5 wsFail "t" c5State
    c5Decision c5Reply "latest news" "network down"
    rfl rfl (by decide) rfl rfl (by decide)

/-- Counterexample to C5 as stated: the claim says a failing search is
"degraded to explanatory placeholder text handed to the completion step".
In `_web_search_node` the failure is instead degraded to
`search_results = None`, and `_call_llm` therefore hands the completion
capability the plain converted history with no placeholder system message. -/
theorem web_search_failure_no_placeholder_counterexample :
    (webSearchNode wsFail ⟨[⟨"user", "latest news", "t"⟩], true, some "latest news", none⟩).search_results
        = none ∧
    buildLlmMessages
        (webSearchNode wsFail ⟨[⟨"user", "latest news", "t"⟩], true, some "latest news", none⟩)
        = [LcMsg.human "latest news"] := ⟨rfl, rfl⟩

/-! ### `backend/services/websearch_service.py` -/

/-- Substring test on character lists (the semantics of the Python
`needle in hay` operator). -/
def listIsInfixOf (needle : List Char) : List Char → Bool
  | [] => needle.isEmpty
  | c :: rest => needle.isPrefixOf (c :: rest) || listIsInfixOf needle rest

/-- `needle in hay` for strings. -/
def strContains (hay needle : String) : Bool :=
  listIsInfixOf needle.toList hay.toList

/-- The Python `str.lower()` builtin, character-wise. -/
def strToLower (s : String) : String := String.mk (s.toList.map Char.toLower)

/-- The `search_keywords` list of `fallback_keyword_analysis`
(`websearch_service.py` lines 307–312). -/
def search_keywords : List String := [
  "current", "latest", "recent", "new", "news", "today", "yesterday",
  "what happened", "what's happening", "stock price", "weather",
  "update", "breaking", "trending", "search", "find information",
  "look up", "real-time", "live", "now"]

/-- The Python `re.search` capability: pattern and text in, match flag out
(the regular-expression engine is external to the embedding). -/
def ReFn : Type := String → String → Bool

/-- The `question_patterns` list of `fallback_keyword_analysis`
(lines 316–322). -/
def question_patterns : List String := [
  "\\bwhat\\s+is\\s+the\\s+current\\b",
  "\\bwhat\\s+are\\s+the\\s+latest\\b",
  "\\bhow\\s+much\\s+is\\b",
  "\\bwhen\\s+did\\b.*\\bhappen\\b",
  "\\bwho\\s+is\\s+the\\s+current\\b"]

/-- `WebSearchService.fallback_keyword_analysis` (lines 303–336): flag
`needs_search` when any keyword occurs in the lowercased content or any
question pattern matches it; the query is then the original content
verbatim, else `None`. -/
def fallback_keyword_analysis (reSearch : ReFn) (content : String) :
    Bool × Option String :=
  let needs_search := search_keywords.any (fun kw => strContains (strToLower content) kw)
  let needs_search :=
    needs_search || question_patterns.any (fun p => reSearch p (strToLower content))
  (needs_search, if needs_search then some content else none)

/-- A completion capability whose reply is not parseable JSON. -/
def llmNotJson : LlmChatFn := fun _ => Except.ok "I think a search may help."

/-- A decision parse that always fails (models `json.loads` raising on any
reply). -/
def jsonAlwaysFail : JsonDecisionFn := fun _ => none

/-- A regular-expression capability that never matches (the keyword branch
already decides the C4 example). -/
def reNone : ReFn := fun _ _ => false

/-- The conversation state used in the C4 demonstration. -/
def c4State : ChatState :=
  ⟨[⟨"user", "What's the weather today?", "t"⟩], false, none, none⟩

/-- Counterexample to C4 as stated: on an unparseable reply,
`ChatProcessor._decide_search_node` produces the fixed pair
`needs_search = False, search_query = None` (lines 117–120), not the
keyword/pattern heuristic's decision, which at this input is
`(True, the message verbatim)` (keywords `weather`, `today`). -/
theorem decide_parse_failure_not_heuristic_counterexample :
    decideSearchNode llmNotJson jsonAlwaysFail c4State =
      Except.ok ⟨[⟨"user", "What's the weather today?", "t"⟩], false, none, none⟩ ∧
    fallback_keyword_analysis reNone "What's the weather today?" =
      (true, some "What's the weather today?") ∧
    ((false : Bool), (none : Option String)) ≠
      (true, some "What's the weather today?") := ⟨rfl, rfl, by decide⟩

/-- C4 (amended): on any completion reply whose text cannot be parsed as
the decision object, `_decide_search_node` does not raise and produces the
fixed well-formed decision `needs_search = False, search_query = None`
(the keyword/pattern heuristic lives only in the deprecated
`WebSearchService.analyze_need_for_search`, and even there only on JSON
decode errors). -/
theorem decide_parse_failure_wellformed (llm : LlmChatFn)
    (jsonLoads : JsonDecisionFn) (state : ChatState) (response : String)
    (hllm : llm (buildDecideMessages state) = Except.ok response)
    (hparse : jsonLoads response = none) :
    decideSearchNode llm jsonLoads state =
      Except.ok { state with needs_search := false, search_query := none } := by
  simp [decideSearchNode, hllm, hparse]

/-- Witness for the amended C4 at a concrete input. -/
theorem decide_parse_failure_wellformed_witness :
    decideSearchNode llmNotJson jsonAlwaysFail c4State =
      Except.ok { c4State with needs_search := false, search_query := none } :=
  decide_parse_failure_wellformed llmNotJson jsonAlwaysFail c4State
    "I think a search may help." rfl rfl

/-- A `{title, snippet, url}` search result record as the service returns
them. -/
structure SearchResult where
  title : String
  snippet : String
  url : String
deriving Repr, DecidableEq

/-- One raw result object from `data["web"]["results"]` in the Brave API
response; `.get` defaults apply to absent fields. -/
structure BraveWebResult where
  title : Option String
  description : Option String
  url : Option String
deriving Repr, DecidableEq

/-- The Brave Search HTTP round trip of `_fallback_search`
(`requests.get` + `response.json()`, lines 160–181): `error` models a
raised `requests.exceptions.RequestException`; `ok none` a JSON body
without `web`/`results`; `ok (some rs)` the parsed result objects.  The
second argument is the `count` request parameter. -/
def BraveApiFn : Type := String → Nat → Except String (Option (List BraveWebResult))

/-- `WebSearchService._fallback_search` (lines 133–214): no API key or a
request failure degrade to a single placeholder result; a body without
`web`/`results` yields `[]`; otherwise the first `max_results` parsed
objects are converted — and appended TWICE each (the duplicated append
block, lines 187–196).  The generic `except Exception` handler
(lines 208–214) likewise returns a single placeholder result; the embedding
folds both failure handlers into the `Except.error` case, keeping the
`RequestException` snippet text. -/
def fallback_search (brave_api_key : Option String) (api : BraveApiFn)
    (query : String) (max_results : Nat) : List SearchResult :=
  match brave_api_key with
  | none =>
    [⟨"Search Error",
      "Web search is currently unavailable. Please configure search API keys.", ""⟩]
  | some _ =>
    match api query (min max_results 10) with
    | Except.error e =>
      [⟨"Search Error", "Web search failed: " ++ e ++ ". Please try again later.", ""⟩]
    | Except.ok none => []
    | Except.ok (some results) =>
      (results.take max_results).flatMap (fun r =>
        [⟨r.title.getD "No title", r.description.getD "No description", r.url.getD ""⟩,
         ⟨r.title.getD "No title", r.description.getD "No description", r.url.getD ""⟩])

/-- The MCP search capability `MCPWebSearchClient.search` (lines 431–508):
returns parsed results or raises; exceptions re-raise to the caller. -/
def McpFn : Type := String → Nat → Except String (List SearchResult)

/-- The Python `str.strip()` builtin, character-wise. -/
def strStrip (s : String) : String :=
  String.mk ((((s.toList.dropWhile Char.isWhitespace).reverse).dropWhile
    Char.isWhitespace).reverse)

/-- `WebSearchService.search` (lines 68–99): an empty stripped query returns
`[]`; otherwise try the MCP search and, on an exception or an empty result
list, fall back to `_fallback_search`. -/
def search (mcp : McpFn) (brave_api_key : Option String) (api : BraveApiFn)
    (query : String) (max_results : Nat) : List SearchResult :=
  if strStrip query = "" then []
  else
    match mcp query max_results with
    | Except.ok results =>
      if results.isEmpty then fallback_search brave_api_key api query max_results
      else results
    | Except.error _ => fallback_search brave_api_key api query max_results

/-- An MCP capability that raises, forcing the Brave fallback. -/
def mcpFail : McpFn := fun _ _ => Except.error "MCP search failed"

/-- A Brave API round trip returning exactly one parsed result. -/
def apiOne : BraveApiFn := fun _ _ =>
  Except.ok (some [⟨some "T", some "D", some "u"⟩])

/-- C8: refuted (code bug).  With `max_results = 1` and a Brave response
holding one result, the search step returns 2 result tuples: the
duplicated append block in `_fallback_search` (lines 187–196) emits every
parsed result twice, so up to `2 * max_results` tuples are returned,
contradicting the "up to `max_results`" contract implied by the
`[:max_results]` slice on line 186. -/
theorem search_exceeds_max_results :
    (search mcpFail (some "key") apiOne "q" 1).length = 2 ∧
    ¬ (search mcpFail (some "key") apiOne "q" 1).length ≤ 1 := by decide

/-! ### `backend/chat_manager.py` -/

/-- The process-wide `self.conversations` dict of `ChatManager`, modelled as
an association list from conversation id to that processor's stored
`chat_history` (dict keys are unique; none of the proved statements depends
on uniqueness). -/
def ConversationStore : Type := List (String × List Msg)

/-- `ChatManager.clear_conversation` (`chat_manager.py` lines 23–34; the
`chat_graph.py` variant, lines 216–230, is identical up to `async`): when
the id is present, `clear_history()` empties that processor's history and
`pop` then removes the id from the mapping; an unknown id is only logged
(a no-op). -/
def clear_conversation (conversations : ConversationStore)
    (conversation_id : String) : ConversationStore :=
  if conversations.any (fun p => p.1 == conversation_id) then
    (conversations.map (fun p =>
        if p.1 == conversation_id then (p.1, ([] : List Msg)) else p)).filter
      (fun p => !(p.1 == conversation_id))
  else conversations

/-- Emptying the histories of the entries about to be removed does not
change the surviving entries. -/
theorem clear_map_filter (conversation_id : String) (l : ConversationStore) :
    ((l.map (fun p =>
        if p.1 == conversation_id then (p.1, ([] : List Msg)) else p)).filter
      (fun p => !(p.1 == conversation_id))) =
      l.filter (fun p => !(p.1 == conversation_id)) := by
  induction l with
  | nil => rfl
  | cons p l ih =>
    by_cases hp : p.1 = conversation_id
    · simp [List.filter_cons, hp]
      simpa using ih
    · simp [List.filter_cons, hp]
      simpa using ih

/-- A store without the id is unchanged by the removal filter. -/
theorem clear_filter_of_absent (conversation_id : String) (l : ConversationStore)
    (h : l.any (fun p => p.1 == conversation_id) = false) :
    l.filter (fun p => !(p.1 == conversation_id)) = l := by
  induction l with
  | nil => rfl
  | cons p l ih =>
    simp only [List.any_cons, Bool.or_eq_false_iff] at h
    simp [List.filter_cons, h.1, ih h.2]

/-- The removal filter leaves no entry under the cleared id. -/
theorem clear_filter_none_left (conversation_id : String) (l : ConversationStore) :
    (l.filter (fun p => !(p.1 == conversation_id))).any
      (fun p => p.1 == conversation_id) = false := by
  induction l with
  | nil => rfl
  | cons p l ih =>
    by_cases hp : p.1 = conversation_id
    · simp [List.filter_cons, hp, ih]
    · simp [List.filter_cons, hp, ih]

/-- C9: confirmed.  Clearing an unknown conversation id is a no-op that
does not raise; clearing a present id empties its history and removes the
id from the store entirely (every entry under the id is gone, all other
entries survive unchanged — the result is exactly the store filtered of
that id). -/
theorem clear_conversation_spec (conversations : ConversationStore)
    (conversation_id : String) :
    (conversations.any (fun p => p.1 == conversation_id) = false →
      clear_conversation conversations conversation_id = conversations) ∧
    (clear_conversation conversations conversation_id).any
        (fun p => p.1 == conversation_id) = false ∧
    clear_conversation conversations conversation_id =
      conversations.filter (fun p => !(p.1 == conversation_id)) := by
  have hfilter : clear_conversation conversations conversation_id =
      conversations.filter (fun p => !(p.1 == conversation_id)) := by
    unfold clear_conversation
    by_cases hmem : conversations.any (fun p => p.1 == conversation_id) = true
    · simp only [hmem, if_true]
      exact clear_map_filter conversation_id conversations
    · simp only [hmem, if_false]
      exact (clear_filter_of_absent conversation_id conversations
        (Bool.eq_false_iff.mpr hmem)).symm
  refine ⟨?_, ?_, hfilter⟩
  · intro habs
    rw [hfilter]
    exact clear_filter_of_absent conversation_id conversations habs
  · rw [hfilter]
    exact clear_filter_none_left conversation_id conversations

/-- A demo store holding two conversations. -/
def demoStore : ConversationStore := [("c1", demoHist1), ("c2", [])]

/-- Witness for C9 at concrete inputs: clearing the unknown id `"zz"` in
the demo store is a no-op, and the cleared store never retains the id. -/
theorem clear_conversation_spec_witness :
    (demoStore.any (fun p => p.1 == "zz") = false →
      clear_conversation demoStore "zz" = demoStore) ∧
    (clear_conversation demoStore "zz").any (fun p => p.1 == "zz") = false ∧
    clear_conversation demoStore "zz" =
      demoStore.filter (fun p => !(p.1 == "zz")) :=
  clear_conversation_spec demoStore "zz"

/-! ### `truncate_messages` (hard truncation)

`backend/chat_graph.py` line 16 imports `truncate_messages` from
`utils.chat_utils` and line 156 applies it to the per-call history copy,
but the function itself is absent from the sources; it is modelled here
from spec §4.1. -/

/-- Modelled from the spec: the per-message cost of hard truncation,
`token(content) + fixed per-message overhead constant, e.g. 4` (§4.1);
the tokenizer is abstracted as the total function `tokc`. -/
def msgCost (tokc : String → Nat) (m : Msg) : Nat := tokc m.content + 4

/-- Total cost of a message list under `msgCost`. -/
def sumCost (tokc : String → Nat) (msgs : List Msg) : Nat :=
  (msgs.map (msgCost tokc)).sum

/-- Modelled from the spec: the newest-to-oldest accumulation loop of hard
truncation — keep accepting older messages while each still fits the
remaining budget, stop at the first that does not (§4.1). -/
def takeWithinBudget (tokc : String → Nat) : List Msg → Nat → List Msg
  | [], _ => []
  | m :: older, budget =>
    if msgCost tokc m ≤ budget then
      m :: takeWithinBudget tokc older (budget - msgCost tokc m)
    else []

/-- Modelled from the spec: `truncate_messages`, absent from the sources
(only imported and called).  Spec §4.1 hard truncation: iterate from newest
to oldest, accumulate the running cost, stop accepting older messages once
adding one would exceed the budget, and return the accepted subset restored
to chronological order; when the single newest message alone exceeds the
budget, still return at least that one newest message. -/
def truncate_messages (tokc : String → Nat) (messages : List Msg)
    (budget : Nat) : List Msg :=
  match messages.reverse with
  | [] => []
  | newest :: older =>
    if msgCost tokc newest ≤ budget then
      (newest :: takeWithinBudget tokc older (budget - msgCost tokc newest)).reverse
    else [newest]

/-- The accumulation loop accepts a prefix of the (newest-first) input. -/
theorem takeWithinBudget_prefix (tokc : String → Nat) (l : List Msg)
    (budget : Nat) : takeWithinBudget tokc l budget <+: l := by
  induction l generalizing budget with
  | nil => exact ⟨[], rfl⟩
  | cons m older ih =>
    by_cases hm : msgCost tokc m ≤ budget
    · obtain ⟨t, ht⟩ := ih (budget - msgCost tokc m)
      exact ⟨t, by simp [takeWithinBudget, hm, ht]⟩
    · exact ⟨m :: older, by simp [takeWithinBudget, hm]⟩

/-- The accumulation loop never exceeds its budget. -/
theorem takeWithinBudget_cost (tokc : String → Nat) (l : List Msg)
    (budget : Nat) :
    sumCost tokc (takeWithinBudget tokc l budget) ≤ budget := by
  induction l generalizing budget with
  | nil => simp [takeWithinBudget, sumCost]
  | cons m older ih =>
    by_cases hm : msgCost tokc m ≤ budget
    · have hrec := ih (budget - msgCost tokc m)
      simp only [takeWithinBudget, hm, if_true, sumCost, List.map_cons,
        List.sum_cons] at hrec ⊢
      omega
    · simp [takeWithinBudget, hm, sumCost]

/-- Reversing does not change the total cost. -/
theorem sumCost_reverse (tokc : String → Nat) (l : List Msg) :
    sumCost tokc l.reverse = sumCost tokc l := by
  simp [sumCost, List.map_reverse, List.sum_reverse]

/-- C7: confirmed (spec-modelled).  Hard truncation returns a contiguous
suffix of the input in original order; when the newest message fits the
budget the output cost is at most the budget; when the single newest
message alone exceeds the budget the output is still exactly that newest
message. -/
theorem truncate_messages_spec (tokc : String → Nat) (messages : List Msg)
    (budget : Nat) :
    truncate_messages tokc messages budget <:+ messages ∧
    (match messages.getLast? with
     | none => truncate_messages tokc messages budget = []
     | some newest =>
       if msgCost tokc newest ≤ budget then
         sumCost tokc (truncate_messages tokc messages budget) ≤ budget
       else truncate_messages tokc messages budget = [newest]) := by
  cases hrev : messages.reverse with
  | nil =>
    have hnil : messages = [] := by
      simpa using congrArg List.reverse hrev
    subst hnil
    exact ⟨⟨[], rfl⟩, rfl⟩
  | cons newest older =>
    have hmsg : messages = older.reverse ++ [newest] := by
      have := congrArg List.reverse hrev
      simpa using this
    have hlast : messages.getLast? = some newest := by
      rw [hmsg]; exact List.getLast?_concat _
    by_cases hc : msgCost tokc newest ≤ budget
    · constructor
      · show truncate_messages tokc messages budget <:+ messages
        simp only [truncate_messages, hrev, hc, if_true]
        obtain ⟨t, ht⟩ :=
          takeWithinBudget_prefix tokc older (budget - msgCost tokc newest)
        refine ⟨t.reverse, ?_⟩
        have : messages.reverse = newest :: older := hrev
        calc t.reverse ++
              (newest :: takeWithinBudget tokc older (budget - msgCost tokc newest)).reverse
            = ((newest :: takeWithinBudget tokc older (budget - msgCost tokc newest)) ++ t).reverse := by
              simp [List.reverse_append]
          _ = messages := by
              rw [List.cons_append, ht, ← hrev, List.reverse_reverse]
      · rw [hlast]
        simp only [hc, if_true]
        simp only [truncate_messages, hrev, hc, if_true]
        rw [sumCost_reverse]
        have hrec := takeWithinBudget_cost tokc older (budget - msgCost tokc newest)
        simp only [sumCost, List.map_cons, List.sum_cons] at hrec ⊢
        omega
    · constructor
      · show truncate_messages tokc messages budget <:+ messages
        simp only [truncate_messages, hrev, hc, if_false]
        exact ⟨older.reverse, hmsg.symm⟩
      · rw [hlast]
        simp only [hc, if_false]
        simp [truncate_messages, hrev, hc]

end GTMAgent
